import Mathlib

/-!
Verification development for the `event_source` event-sourcing engine.

The Rust sources are shallowly embedded:
  * `src/commit.rs`        → `CommitAttempt`, `Commit`, `DeserializedCommit`,
                             `Commit.deserialize`
  * `src/store/sqlite.rs`  → `SqliteStore` (a list of rows plus the AUTOINCREMENT
                             counter), `SqliteStore.commit`, `SqliteStore.get_range`,
                             `SqliteStore.get_undispatched_commits`,
                             `SqliteStore.mark_commit_as_dispatched`,
                             `SqliteStore.get_commit`, `SqliteStoreError.error_type`
  * `src/dispatch.rs`      → `dispatchGo`, `Dispatcher.dispatch`
  * `src/client.rs`        → `ClientState`, `Client.commitFn`, `Client.fetch_latest`,
                             `Client.issue_command`
  * `src/server/dispatch.rs` → `lookupAgg`, `WebSocketSubscriptions.publish`,
                             `wsDispatchDelegate`

Machine integers (`i64`) are modelled as `Int`; the runs verified here stay far
below the overflow boundary, and the Rust code performs no wrapping arithmetic.
UUIDs are modelled as `Nat` (the code only ever compares them for equality and
round-trips them through their string form).  Byte strings are `List Nat`.
A Rust panic (an `unwrap`, `expect`, `panic!` or `unreachable!` call) is modelled
as `Option.none` / a dedicated `none` result: the function does not return a
value to its caller on that path.
-/

deriving instance DecidableEq for Except

/-- Byte strings (`Vec<u8>` in the Rust sources). -/
abbrev Bytes := List Nat

/-- `CommitAttempt` from `src/commit.rs`: the pending form submitted to the
store, identical to `Commit` minus `commit_number` and `dispatched`. -/
structure CommitAttempt where
  aggregate_id : Nat
  aggregate_version : Int
  commit_id : Nat
  commit_timestamp : Int
  commit_sequence : Int
  serialized_metadata : Bytes
  serialized_events : Bytes
  events_count : Int
deriving Repr, DecidableEq

/-- `Commit` from `src/commit.rs`: the durable record stored by the store. -/
structure Commit where
  aggregate_id : Nat
  aggregate_version : Int
  commit_id : Nat
  commit_timestamp : Int
  commit_sequence : Int
  commit_number : Int
  serialized_events : Bytes
  serialized_metadata : Bytes
  events_count : Int
  dispatched : Bool
deriving Repr, DecidableEq

/-- `DeserializedCommit` from `src/commit.rs`, polymorphic over the parsed
document type `V` (`serde_json::Value` in the sources). -/
structure DeserializedCommit (V : Type) where
  aggregate_id : Nat
  aggregate_version : Int
  commit_id : Nat
  commit_timestamp : Int
  commit_sequence : Int
  commit_number : Int
  events : V
  metadata : V
  events_count : Int
  dispatched : Bool
deriving Repr

/-- A commit with its `dispatched` flag cleared: the projection under which the
dispatcher leaves every row invariant (it may only flip `dispatched`). -/
def stripFlag (r : Commit) : Commit := { r with dispatched := false }

/-- `Commit::deserialize` from `src/commit.rs`.  The Rust body is
`serde_json::from_slice(..).unwrap()` on both payloads; the codec itself is an
external collaborator, so it enters the model as the parameter `parse`.
`none` models the panic of the two `unwrap` calls: the function returns
normally only when both payloads parse. -/
def Commit.deserialize {V : Type} (parse : Bytes → Option V) (c : Commit) :
    Option (DeserializedCommit V) :=
  match parse c.serialized_events, parse c.serialized_metadata with
  | some events, some metadata =>
      some { aggregate_id := c.aggregate_id
             aggregate_version := c.aggregate_version
             commit_id := c.commit_id
             commit_timestamp := c.commit_timestamp
             commit_number := c.commit_number
             commit_sequence := c.commit_sequence
             events := events
             metadata := metadata
             events_count := c.events_count
             dispatched := c.dispatched }
  | _, _ => none

/-- `StorageCommitConflict` from `src/store/mod.rs`. -/
inductive StorageCommitConflict where
  | CommitIdConflict
  | CommitSequenceConflict
  | AggregateVersionConflict
deriving Repr, DecidableEq

/-- `StoreErrorType` as used by `src/store/sqlite.rs` (`DuplicateWriteError`
carrying the conflict taxonomy, or `UnknownError`). -/
inductive StoreErrorType where
  | DuplicateWriteError (which : StorageCommitConflict)
  | UnknownError
deriving Repr, DecidableEq

/-- The slice of `rusqlite::Error` that `SqliteStoreError::error_type` inspects:
`SqliteFailure` carries an optional message; every other variant is collapsed
into `otherErr`. -/
inductive RusqliteError where
  | sqliteFailure (msg : Option String)
  | otherErr
deriving Repr, DecidableEq

/-- `SqliteStoreError` from `src/store/sqlite.rs`: a wrapper around the
underlying `rusqlite` error. -/
structure SqliteStoreError where
  cause : RusqliteError
deriving Repr, DecidableEq

/-- The exact message SQLite produces when the unique index on
`(aggregate_id, commit_sequence)` is violated. -/
def msgSeqConflict : String :=
  "UNIQUE constraint failed: commits.aggregate_id, commits.commit_sequence"

/-- The exact message SQLite produces when the unique index on
`(aggregate_id, aggregate_version)` is violated. -/
def msgVerConflict : String :=
  "UNIQUE constraint failed: commits.aggregate_id, commits.aggregate_version"

/-- The exact message SQLite produces when the unique index on `commit_id` is
violated. -/
def msgIdConflict : String :=
  "UNIQUE constraint failed: commits.commit_id"

/-- `SqliteStoreError::error_type` from `src/store/sqlite.rs`.  It matches the
wrapped `rusqlite` error against the three literal UNIQUE-violation messages;
any other `SqliteFailure` message hits `panic!(msg.clone())`, modelled as
`none`; every remaining error shape maps to `UnknownError`. -/
def SqliteStoreError.error_type (e : SqliteStoreError) : Option StoreErrorType :=
  match e.cause with
  | RusqliteError.sqliteFailure (some msg) =>
      if msg = msgSeqConflict then
        some (StoreErrorType.DuplicateWriteError StorageCommitConflict.CommitSequenceConflict)
      else if msg = msgVerConflict then
        some (StoreErrorType.DuplicateWriteError StorageCommitConflict.AggregateVersionConflict)
      else if msg = msgIdConflict then
        some (StoreErrorType.DuplicateWriteError StorageCommitConflict.CommitIdConflict)
      else
        none
  | _ => some StoreErrorType.UnknownError

/-- `SqliteStore` from `src/store/sqlite.rs`: the `commits` table as the list of
its rows in insertion order, together with the next AUTOINCREMENT rowid for the
`commit_number` primary-key column. -/
structure SqliteStore where
  rows : List Commit
  next_rowid : Int
deriving Repr, DecidableEq

/-- A store freshly opened in memory after `SqliteStore::initialize` ran the
schema batch of `src/store/sqlite.rs`: an empty `commits` table whose
AUTOINCREMENT counter starts at 1. -/
def emptyStore : SqliteStore := { rows := [], next_rowid := 1 }

/-- Does the table hold a row with this `commit_id` (unique index
`commits_commit_id_unique_idx`)? -/
def SqliteStore.hasCommitId (s : SqliteStore) (i : Nat) : Bool :=
  s.rows.any (fun r => r.commit_id == i)

/-- Does the table hold a row with this `(aggregate_id, aggregate_version)`
pair (unique index `commits_commit_aggregate_idx`)? -/
def SqliteStore.hasAggVersion (s : SqliteStore) (aid : Nat) (v : Int) : Bool :=
  s.rows.any (fun r => r.aggregate_id == aid && r.aggregate_version == v)

/-- Does the table hold a row with this `(aggregate_id, commit_sequence)` pair
(unique index `commits_commit_sequence_idx`)? -/
def SqliteStore.hasAggSequence (s : SqliteStore) (aid : Nat) (q : Int) : Bool :=
  s.rows.any (fun r => r.aggregate_id == aid && r.commit_sequence == q)

/-- The row the INSERT of `SqliteStore::commit` adds: the attempt's columns,
the assigned `commit_number` rowid, and the schema default `dispatched = 0`. -/
def attemptRow (a : CommitAttempt) (n : Int) : Commit :=
  { aggregate_id := a.aggregate_id
    aggregate_version := a.aggregate_version
    commit_id := a.commit_id
    commit_timestamp := a.commit_timestamp
    commit_sequence := a.commit_sequence
    commit_number := n
    serialized_events := a.serialized_events
    serialized_metadata := a.serialized_metadata
    events_count := a.events_count
    dispatched := false }

/-- `SqliteStore::commit` from `src/store/sqlite.rs`.  The INSERT either
violates one of the three unique indexes — producing the corresponding
`SqliteFailure` message, wrapped by `SqliteStoreError::from` — or appends the
row with the next AUTOINCREMENT `commit_number` and returns
`last_insert_rowid()`.  (When several indexes are violated at once SQLite
reports a single one; the model checks them in schema-creation order.  The
classification theorems below only concern states where exactly one index is
violated, for which the order is immaterial.) -/
def SqliteStore.commit (s : SqliteStore) (a : CommitAttempt) :
    Except SqliteStoreError (Int × SqliteStore) :=
  if s.hasCommitId a.commit_id then
    Except.error ⟨RusqliteError.sqliteFailure (some msgIdConflict)⟩
  else if s.hasAggVersion a.aggregate_id a.aggregate_version then
    Except.error ⟨RusqliteError.sqliteFailure (some msgVerConflict)⟩
  else if s.hasAggSequence a.aggregate_id a.commit_sequence then
    Except.error ⟨RusqliteError.sqliteFailure (some msgSeqConflict)⟩
  else
    Except.ok (s.next_rowid,
      { rows := s.rows ++ [attemptRow a s.next_rowid],
        next_rowid := s.next_rowid + 1 })

/-- `SqliteStore::get_range` from `src/store/sqlite.rs`.  The SELECT filters on
`aggregate_version >= min AND aggregate_version <= max AND aggregate_id = ?`
— note: it filters `aggregate_version`, not `commit_sequence` — and carries no
ORDER BY clause, so rows come back in table (insertion) order. -/
def SqliteStore.get_range (s : SqliteStore) (aggregate_id : Nat)
    (min_version max_version : Int) : List Commit :=
  s.rows.filter (fun r =>
    min_version ≤ r.aggregate_version && r.aggregate_version ≤ max_version
      && r.aggregate_id == aggregate_id)

/-- Insertion of a row into a list kept ascending by `commit_number`; models
an `ORDER BY commit_number ASC` clause. -/
def insertByNumber (c : Commit) : List Commit → List Commit
  | [] => [c]
  | x :: xs =>
      if c.commit_number ≤ x.commit_number then c :: x :: xs
      else x :: insertByNumber c xs

/-- Stable sort by `commit_number`, modelling `ORDER BY commit_number ASC`. -/
def sortByNumber (l : List Commit) : List Commit :=
  l.foldr insertByNumber []

/-- `SqliteStore::get_undispatched_commits` from `src/store/sqlite.rs`:
`SELECT ... WHERE dispatched = 0 ORDER BY commit_number ASC`. -/
def SqliteStore.get_undispatched_commits (s : SqliteStore) : List Commit :=
  sortByNumber (s.rows.filter (fun r => !r.dispatched))

/-- `SqliteStore::mark_commit_as_dispatched` from `src/store/sqlite.rs`:
`UPDATE commits SET dispatched = 1 WHERE commit_id = ?`.  The UPDATE succeeds
whether or not any row matches. -/
def SqliteStore.mark_commit_as_dispatched (s : SqliteStore) (commit_id : Nat) :
    SqliteStore :=
  { s with rows := s.rows.map (fun r =>
      if r.commit_id = commit_id then { r with dispatched := true } else r) }

/-- `SqliteStore::get_commit` from `src/store/sqlite.rs`:
`SELECT ... WHERE commit_id = ? ORDER BY commit_number ASC` read through
`query_row`, which yields the first returned row and fails with
`QueryReturnedNoRows` (a non-`SqliteFailure` rusqlite error, `otherErr` here)
when none matches. -/
def SqliteStore.get_commit (s : SqliteStore) (commit_id : Nat) :
    Except SqliteStoreError Commit :=
  match sortByNumber (s.rows.filter (fun r => r.commit_id == commit_id)) with
  | [] => Except.error ⟨RusqliteError.otherErr⟩
  | c :: _ => Except.ok c

/-- The type of `DispatchDelegate::dispatch` from `src/dispatch.rs`, with the
delegate's `&mut self` state made explicit: a step takes the delegate state and
a commit and returns the updated state together with `Result<(), String>`. -/
abbrev DelegateStep (D : Type) := D → Commit → D × Except String Unit

/-- The loop body of `Dispatcher::dispatch` from `src/dispatch.rs`, recursing
over the snapshot of undispatched commits: each commit is handed to the
delegate; on acceptance the store marks it dispatched and the loop continues;
on rejection the loop stops and the delegate's error is returned
(`none` = the `Ok(())` success result, `some e` = `Err(e)`). -/
def dispatchGo {D : Type} (step : DelegateStep D) :
    D → SqliteStore → List Commit → D × SqliteStore × Option String
  | d, s, [] => (d, s, none)
  | d, s, c :: rest =>
      match (step d c).2 with
      | Except.ok _ =>
          dispatchGo step (step d c).1
            (s.mark_commit_as_dispatched c.commit_id) rest
      | Except.error e => ((step d c).1, s, some e)

/-- `Dispatcher::dispatch` from `src/dispatch.rs`: take the snapshot of
undispatched commits, then run the loop. -/
def Dispatcher.dispatch {D : Type} (step : DelegateStep D) (d : D)
    (s : SqliteStore) : D × SqliteStore × Option String :=
  dispatchGo step d s s.get_undispatched_commits

/-- Runs the delegate over a list of commits, returning its final state when it
accepts every one of them, `none` as soon as it rejects one.  Used to phrase
hypotheses about the prefix of a drain that precedes a failure. -/
def runAccepted {D : Type} (step : DelegateStep D) : D → List Commit → Option D
  | d, [] => some d
  | d, c :: rest =>
      match (step d c).2 with
      | Except.ok _ => runAccepted step (step d c).1 rest
      | Except.error _ => none

/-- Marks every commit of the list dispatched, in order — the store mutations a
drain performs while the delegate keeps accepting. -/
def markAll (s : SqliteStore) (l : List Commit) : SqliteStore :=
  l.foldl (fun acc c => acc.mark_commit_as_dispatched c.commit_id) s

/-- The `dispatched` flags currently stored for a given `commit_id`, in table
order — the observation used to state that a drain left a commit undispatched. -/
def flagsOf (s : SqliteStore) (commit_id : Nat) : List Bool :=
  (s.rows.filter (fun r => r.commit_id == commit_id)).map (fun r => r.dispatched)

/-- The `Aggregate` trait of `src/aggregate.rs`, as a record of its three
methods over a state type `A` and event type `E`. -/
structure AggOps (A E : Type) where
  idOf : A → Nat
  versionOf : A → Int
  applyEvent : A → E → A

/-- The `ClientError` enum of `src/client.rs` (the `JsonError` payload of
`SerializationError` is irrelevant to the claims and dropped). -/
inductive ClientError where
  | SerializationError
  | StoreError (e : SqliteStoreError)
deriving Repr, DecidableEq

/-- `Client` from `src/client.rs`: the store, the dispatcher's delegate state,
the session aggregate and the session watermark `commit_sequence` (initialised
to 0 by `ClientBuilder::finish`). -/
structure ClientState (A D : Type) where
  store : SqliteStore
  dispatch_delegate : D
  aggregate : A
  commit_sequence : Int
deriving Repr, DecidableEq

/-- `i64::max_value()`, the upper bound `Client::fetch_latest` passes to
`get_range`. -/
def maxI64 : Int := 9223372036854775807

/-- The private `Client::commit` of `src/client.rs`: append via the store; on
success run the dispatcher, ignoring its result (`let _unhandled_result = ...`)
but keeping its store/delegate mutations; return the commit number.  On a store
error the attempt is rejected untouched and the dispatcher does not run. -/
def Client.commitFn {A D : Type} (step : DelegateStep D)
    (cl : ClientState A D) (att : CommitAttempt) :
    ClientState A D × Except SqliteStoreError Int :=
  match cl.store.commit att with
  | Except.error e => (cl, Except.error e)
  | Except.ok (n, s1) =>
      let res := Dispatcher.dispatch step cl.dispatch_delegate s1
      ({ cl with store := res.2.1, dispatch_delegate := res.1 }, Except.ok n)

/-- The replay loop of `Client::fetch_latest`: for each commit of the range, in
the order the store returned them, decode `serialized_events` (a decode failure
is surfaced as `SerializationError`, keeping the mutations made so far), fold
every event into the session aggregate, and advance the watermark to that
commit's `commit_sequence`. -/
def fetchGo {A E D : Type} (ops : AggOps A E) (dec : Bytes → Option (List E)) :
    ClientState A D → List Commit → ClientState A D × Except ClientError A
  | cl, [] => (cl, Except.ok cl.aggregate)
  | cl, c :: rest =>
      match dec c.serialized_events with
      | none => (cl, Except.error ClientError.SerializationError)
      | some events =>
          fetchGo ops dec
            { cl with aggregate := events.foldl ops.applyEvent cl.aggregate,
                      commit_sequence := c.commit_sequence }
            rest

/-- `Client::fetch_latest` from `src/client.rs`: fetch
`get_range(aggregate.id(), self.commit_sequence, i64::max_value())` and replay
it onto the session aggregate. -/
def Client.fetch_latest {A E D : Type} (ops : AggOps A E)
    (dec : Bytes → Option (List E)) (cl : ClientState A D) :
    ClientState A D × Except ClientError A :=
  fetchGo ops dec cl
    (cl.store.get_range (ops.idOf cl.aggregate) cl.commit_sequence maxI64)

/-- `Client::issue_command` from `src/client.rs`.  The command runs against the
caller-supplied aggregate `a`; the attempt is built from the *client's* session
aggregate (`self.aggregate.id()`, `self.aggregate.version()`) and watermark
(`self.commit_sequence + 1`).  Event/metadata serialization is the external
JSON codec, modelled by `enc` for the event list and by passing the metadata
already encoded; the fresh `Uuid::new_v4()` and `Utc::now()` enter as the
parameters `fresh` and `now`.  The errors mirror
`Either<ClientError, C::Error>`: `Sum.inl` = `Either::Left`,
`Sum.inr` = `Either::Right` (the command handler's error, verbatim). -/
def Client.issue_command {A E D Cerr : Type} (ops : AggOps A E)
    (step : DelegateStep D) (enc : List E → Bytes) (cl : ClientState A D)
    (a : A) (cmd : A → Except Cerr (List E)) (meta : Bytes)
    (fresh : Nat) (now : Int) :
    ClientState A D × Except (ClientError ⊕ Cerr) Commit :=
  match cmd a with
  | Except.error e => (cl, Except.error (Sum.inr e))
  | Except.ok aggregate_update_events =>
      let att : CommitAttempt :=
        { aggregate_id := ops.idOf cl.aggregate
          aggregate_version := ops.versionOf cl.aggregate
          commit_id := fresh
          commit_timestamp := now
          commit_sequence := cl.commit_sequence + 1
          serialized_metadata := meta
          serialized_events := enc aggregate_update_events
          events_count := (aggregate_update_events.length : Int) }
      match Client.commitFn step cl att with
      | (cl1, Except.error e) => (cl1, Except.error (Sum.inl (ClientError.StoreError e)))
      | (cl1, Except.ok _) =>
          match cl1.store.get_commit att.commit_id with
          | Except.error e =>
              (cl1, Except.error (Sum.inl (ClientError.StoreError e)))
          | Except.ok c => (cl1, Except.ok c)

/-- The subscription hub's state, `src/server/dispatch.rs`: the concurrent map
`aggregate_id → (subscriber_id → outbound channel)`, snapshotted as an
association list whose inner maps are lists of subscriber ids (the channels
themselves are outside the model: sends can only fail per-subscriber and such
failures are logged and swallowed). -/
abbrev AggregateMap := List (Nat × List Nat)

/-- `CHashMap::get` on the subscription map. -/
def lookupAgg (m : AggregateMap) (aggregate_id : Nat) : Option (List Nat) :=
  (m.find? (fun p => p.1 == aggregate_id)).map (fun p => p.2)

/-- `WebSocketSubscriptions::publish` from `src/server/dispatch.rs`.  The Rust
body looks up the inner map, serializes `commit.deserialize()` with `unwrap`
(a panic when a payload is malformed, `none` here), then matches the lookup:
`Some` sends the encoded message to every subscriber (send errors are logged
and swallowed, so the send list is returned); `None` executes
`unreachable!("No subscriber to contact!")` — a panic, `none` here. -/
def WebSocketSubscriptions.publish {V : Type} (parse : Bytes → Option V)
    (m : AggregateMap) (c : Commit) : Option (List Nat) :=
  let option := lookupAgg m c.aggregate_id
  match Commit.deserialize parse c with
  | none => none
  | some _ =>
      match option with
      | some subscriber_map => some subscriber_map
      | none => none

/-- `<WebSocketSubscriptions as DispatchDelegate>::dispatch` from
`src/server/dispatch.rs`: call `publish` and return `Ok(())`; a panic inside
`publish` propagates (`none`). -/
def wsDispatchDelegate {V : Type} (parse : Bytes → Option V)
    (m : AggregateMap) (c : Commit) : Option (Except String Unit) :=
  (WebSocketSubscriptions.publish parse m c).map (fun _ => Except.ok ())

/-- Store states reachable through the store API, with every committed attempt
satisfying `P`: the freshly initialised store is reachable; a successful
`commit` of an attempt satisfying `P` and a `mark_commit_as_dispatched` both
preserve reachability.  (The read operations do not change the state.) -/
inductive Reachable (P : CommitAttempt → Prop) : SqliteStore → Prop where
  | init : Reachable P emptyStore
  | commit_ok (s s2 : SqliteStore) (a : CommitAttempt) (n : Int) :
      Reachable P s → P a → SqliteStore.commit s a = Except.ok (n, s2) →
      Reachable P s2
  | mark (s : SqliteStore) (i : Nat) :
      Reachable P s → Reachable P (s.mark_commit_as_dispatched i)

/-- Concrete `Aggregate` instance for the closed runs: the state is its own
version counter, the aggregate id is 1, and every applied event bumps the
version by one (the `MockAggregate` of the `src/client.rs` tests). -/
def opsInt : AggOps Int Unit := ⟨fun _ => 1, fun v => v, fun v _ => v + 1⟩

/-- Concrete event-list codec for the closed runs: a list of unit events is
encoded as the single byte holding its length. -/
def encU (es : List Unit) : Bytes := [es.length]

/-- Decoder matching `encU`; any other byte string is malformed. -/
def decU (b : Bytes) : Option (List Unit) :=
  match b with
  | [n] => some (List.replicate n ())
  | _ => none

/-- The `NullDispatcher` delegate of `src/dispatch.rs`: accepts every commit. -/
def stepNull : DelegateStep Unit := fun d _ => (d, Except.ok ())

/-- A delegate that rejects every commit — used to exercise the drain-halting
path of the dispatcher. -/
def stepRefuse : DelegateStep Unit := fun d _ => (d, Except.error "boom")

/-- A command handler that succeeds with `n` events. -/
def cmdEmit (n : Nat) : Int → Except String (List Unit) :=
  fun _ => Except.ok (List.replicate n ())

/-- A command handler that refuses with a caller-defined error. -/
def cmdRefuse : Int → Except String (List Unit) :=
  fun _ => Except.error "refused"

/-- A freshly built client (`ClientBuilder::finish`): empty store, watermark
`commit_sequence = 0`, session aggregate at version 0. -/
def clientStart : ClientState Int Unit :=
  { store := emptyStore, dispatch_delegate := (), aggregate := 0,
    commit_sequence := 0 }

/-- Round 1 of the replay scenario: a command producing two events is issued
(commit 1: `commit_sequence = 1`, `aggregate_version = 0`, two events). -/
def clA : ClientState Int Unit :=
  (Client.issue_command opsInt stepNull encU clientStart clientStart.aggregate
    (cmdEmit 2) [0] 101 0).1

/-- Replay after round 1. -/
def clAf : ClientState Int Unit × Except ClientError Int :=
  Client.fetch_latest opsInt decU clA

/-- Round 2: one more event (commit 2: `commit_sequence = 2`,
`aggregate_version = 2`). -/
def clB : ClientState Int Unit :=
  (Client.issue_command opsInt stepNull encU clAf.1 clAf.1.aggregate
    (cmdEmit 1) [0] 102 0).1

/-- Replay after round 2. -/
def clBf : ClientState Int Unit × Except ClientError Int :=
  Client.fetch_latest opsInt decU clB

/-- Round 3: one more event (commit 3: `commit_sequence = 3`,
`aggregate_version = 3`). -/
def clC : ClientState Int Unit :=
  (Client.issue_command opsInt stepNull encU clBf.1 clBf.1.aggregate
    (cmdEmit 1) [0] 103 0).1

/-- Replay after round 3 — the round on which P6 fails. -/
def clCf : ClientState Int Unit × Except ClientError Int :=
  Client.fetch_latest opsInt decU clC

/-- A single-event commit attempt whose `commit_sequence` (5) differs from its
`aggregate_version` (0) — the discriminating input for the range query. -/
def attSeqFive : CommitAttempt :=
  { aggregate_id := 7, aggregate_version := 0, commit_id := 9,
    commit_timestamp := 0, commit_sequence := 5,
    serialized_metadata := [0], serialized_events := [1], events_count := 1 }

/-- The store holding exactly the durable form of `attSeqFive`. -/
def stSeqFive : SqliteStore :=
  { rows := [attemptRow attSeqFive 1], next_rowid := 2 }

/-- An attempt against `stSeqFive` that reuses only the stored
`(aggregate_id, commit_sequence)` pair (fresh `commit_id`, fresh
`aggregate_version`). -/
def attReuseSeq : CommitAttempt :=
  { aggregate_id := 7, aggregate_version := 1, commit_id := 10,
    commit_timestamp := 0, commit_sequence := 5,
    serialized_metadata := [0], serialized_events := [1], events_count := 1 }

/-- A commit whose two payloads both parse under `decU` (two events, encoded
as the byte `2`; metadata encoded as the byte `0`). -/
def cmTwoEvents : Commit :=
  { aggregate_id := 3, aggregate_version := 0, commit_id := 11,
    commit_timestamp := 0, commit_sequence := 1, commit_number := 1,
    serialized_events := [2], serialized_metadata := [0], events_count := 2,
    dispatched := false }

/-- A commit whose `serialized_events` payload is malformed for `decU`
(the empty byte string). -/
def cmBadPayload : Commit :=
  { aggregate_id := 3, aggregate_version := 0, commit_id := 13,
    commit_timestamp := 0, commit_sequence := 1, commit_number := 1,
    serialized_events := [], serialized_metadata := [0], events_count := 1,
    dispatched := false }

/-- A commit attempt with an empty events payload: `events_count = 0`,
`serialized_events = encU [] = [0]`. -/
def attZeroEvents : CommitAttempt :=
  { aggregate_id := 7, aggregate_version := 0, commit_id := 12,
    commit_timestamp := 0, commit_sequence := 0,
    serialized_metadata := [0], serialized_events := [0], events_count := 0 }

/-- The store holding exactly the durable form of `attZeroEvents`. -/
def stZeroEvents : SqliteStore :=
  { rows := [attemptRow attZeroEvents 1], next_rowid := 2 }

/-- The durable commit issued by round 1 of the scenario, as
`Client::issue_command` returns it (it was marked dispatched by the
opportunistic drain before `get_commit` read it back). -/
def cmRound1 : Commit :=
  { aggregate_id := 1, aggregate_version := 0, commit_id := 101,
    commit_timestamp := 0, commit_sequence := 1, commit_number := 1,
    serialized_events := [2], serialized_metadata := [0], events_count := 2,
    dispatched := true }

/-- A successful `SqliteStore::commit` appends exactly the attempt's row with
the assigned rowid, and can only have succeeded when no stored row already
carried the attempt's `commit_id`. -/
theorem commit_ok_rows (s s2 : SqliteStore) (a : CommitAttempt) (n : Int)
    (h : SqliteStore.commit s a = Except.ok (n, s2)) :
    s2.rows = s.rows ++ [attemptRow a n] ∧
      s.hasCommitId a.commit_id = false := by
  unfold SqliteStore.commit at h
  by_cases h1 : s.hasCommitId a.commit_id = true
  · rw [if_pos h1] at h; exact absurd h (by simp)
  · rw [if_neg h1] at h
    by_cases h2 : s.hasAggVersion a.aggregate_id a.aggregate_version = true
    · rw [if_pos h2] at h; exact absurd h (by simp)
    · rw [if_neg h2] at h
      by_cases h3 : s.hasAggSequence a.aggregate_id a.commit_sequence = true
      · rw [if_pos h3] at h; exact absurd h (by simp)
      · rw [if_neg h3] at h
        injection h with hpair
        injection hpair with hn hs
        refine ⟨?_, Bool.eq_false_iff.mpr h1⟩
        rw [← hs, hn]

/-- Every row of a store after `mark_commit_as_dispatched` descends from a row
of the original store with the same `events_count`. -/
theorem mark_rows_events (s : SqliteStore) (i : Nat) (r : Commit)
    (hr : r ∈ (s.mark_commit_as_dispatched i).rows) :
    ∃ r0 ∈ s.rows, r.events_count = r0.events_count := by
  unfold SqliteStore.mark_commit_as_dispatched at hr
  simp only [List.mem_map] at hr
  obtain ⟨r0, hr0, heq⟩ := hr
  refine ⟨r0, hr0, ?_⟩
  rw [← heq]
  by_cases hc : r0.commit_id = i <;> simp [hc]

/-- Claim C1 (amended): `SqliteStore::get_range(aggregate_id, lo, hi)` returns
exactly those durable commits of the aggregate whose `aggregate_version` — not
`commit_sequence` — lies in the closed interval `[lo, hi]`; the rows come back
in table (insertion) order, as a sublist of the commit log, with no
`commit_sequence` ordering requested. -/
theorem get_range_filters_on_aggregate_version_C1 :
    ∀ (s : SqliteStore) (aid : Nat) (lo hi : Int),
      (∀ c : Commit, c ∈ s.get_range aid lo hi ↔
        (c ∈ s.rows ∧ c.aggregate_id = aid ∧ lo ≤ c.aggregate_version ∧
          c.aggregate_version ≤ hi))
      ∧ (s.get_range aid lo hi).Sublist s.rows := by
  intro s aid lo hi
  refine ⟨fun c => ?_, List.filter_sublist _⟩
  simp only [SqliteStore.get_range, List.mem_filter, Bool.and_eq_true,
    decide_eq_true_eq, beq_iff_eq]
  tauto

/-- Claim C1 (counterexample): a store holding one durable commit with
`commit_sequence = 5` but `aggregate_version = 0`; `get_range(7, 5, 5)` comes
back empty although the commit's `commit_sequence` lies in `[5, 5]`, because
the query filters on `aggregate_version`. -/
theorem get_range_sequence_claim_false_C1 :
    emptyStore.commit attSeqFive = Except.ok (1, stSeqFive) ∧
    ¬ (∀ c : Commit, c ∈ stSeqFive.get_range 7 5 5 ↔
        (c ∈ stSeqFive.rows ∧ c.aggregate_id = 7 ∧ 5 ≤ c.commit_sequence ∧
          c.commit_sequence ≤ 5)) := by
  refine ⟨by decide, fun h => ?_⟩
  have hmem : attemptRow attSeqFive 1 ∈ stSeqFive.get_range 7 5 5 :=
    (h (attemptRow attSeqFive 1)).2 (by decide)
  have hempty : stSeqFive.get_range 7 5 5 = [] := by decide
  rw [hempty] at hmem
  exact List.not_mem_nil _ hmem

/-- Claim C2: when an append is rejected because exactly one of the three
unique keys is already taken, the rejection carries the matching SQLite
message and `SqliteStoreError::error_type` classifies it as exactly the
corresponding conflict: reused `commit_id` → `CommitIdConflict`, reused
`(aggregate_id, aggregate_version)` → `AggregateVersionConflict`, reused
`(aggregate_id, commit_sequence)` → `CommitSequenceConflict`. -/
theorem commit_conflict_classification_C2 :
    ∀ (s : SqliteStore) (a : CommitAttempt),
      (s.hasCommitId a.commit_id = true →
        s.hasAggVersion a.aggregate_id a.aggregate_version = false →
        s.hasAggSequence a.aggregate_id a.commit_sequence = false →
        s.commit a =
            Except.error ⟨RusqliteError.sqliteFailure (some msgIdConflict)⟩ ∧
        SqliteStoreError.error_type
            ⟨RusqliteError.sqliteFailure (some msgIdConflict)⟩ =
          some (StoreErrorType.DuplicateWriteError
            StorageCommitConflict.CommitIdConflict))
      ∧ (s.hasCommitId a.commit_id = false →
        s.hasAggVersion a.aggregate_id a.aggregate_version = true →
        s.hasAggSequence a.aggregate_id a.commit_sequence = false →
        s.commit a =
            Except.error ⟨RusqliteError.sqliteFailure (some msgVerConflict)⟩ ∧
        SqliteStoreError.error_type
            ⟨RusqliteError.sqliteFailure (some msgVerConflict)⟩ =
          some (StoreErrorType.DuplicateWriteError
            StorageCommitConflict.AggregateVersionConflict))
      ∧ (s.hasCommitId a.commit_id = false →
        s.hasAggVersion a.aggregate_id a.aggregate_version = false →
        s.hasAggSequence a.aggregate_id a.commit_sequence = true →
        s.commit a =
            Except.error ⟨RusqliteError.sqliteFailure (some msgSeqConflict)⟩ ∧
        SqliteStoreError.error_type
            ⟨RusqliteError.sqliteFailure (some msgSeqConflict)⟩ =
          some (StoreErrorType.DuplicateWriteError
            StorageCommitConflict.CommitSequenceConflict)) := by
  intro s a
  refine ⟨fun h1 h2 h3 => ⟨?_, by decide⟩, fun h1 h2 h3 => ⟨?_, by decide⟩,
    fun h1 h2 h3 => ⟨?_, by decide⟩⟩ <;>
    simp [SqliteStore.commit, h1, h2, h3]

/-- Claim C2 (witness): against a store holding one commit (id 9, aggregate 7,
version 0, sequence 5), an attempt reusing only the stored
`(aggregate_id, commit_sequence)` pair is rejected and classified as a
`CommitSequenceConflict`. -/
theorem commit_conflict_classification_witness_C2 :
    stSeqFive.commit attReuseSeq =
        Except.error ⟨RusqliteError.sqliteFailure (some msgSeqConflict)⟩ ∧
    SqliteStoreError.error_type
        ⟨RusqliteError.sqliteFailure (some msgSeqConflict)⟩ =
      some (StoreErrorType.DuplicateWriteError
        StorageCommitConflict.CommitSequenceConflict) :=
  (commit_conflict_classification_C2 stSeqFive attReuseSeq).2.2
    (by decide) (by decide) (by decide)

/-- Claim C3 (code bug, evaluated at the failing input): after three rounds of
`issue_command` + `fetch_latest` on one aggregate — two events in round 1, one
event in rounds 2 and 3 — the pre-command version of round 3 is 3 and the
command produced one event, yet the final `fetch_latest` returns version
5 ≠ 3 + 1: because `fetch_latest` feeds its `commit_sequence` watermark into
`get_range`'s `aggregate_version` filter, round 3's replay re-applies
commit 2's event a second time. -/
theorem fetch_latest_reapplies_commit_C3 :
    clBf.1.aggregate = 3 ∧ clBf.2 = Except.ok 3 ∧
    clCf.2 = Except.ok 5 ∧ ¬ ((5 : Int) = 3 + 1) :=
  ⟨by decide, by decide, by decide, by decide⟩

/-- Claim C4 (counterexample): a commit with well-formed payloads delivered
through the dispatcher callback while the subscriber map has no entry for its
aggregate: the `None` arm of `publish` executes
`unreachable!("No subscriber to contact!")` — a panic (`none`), not a
successful no-op. -/
theorem publish_no_subscribers_claim_false_C4 :
    (Commit.deserialize decU cmTwoEvents).isSome = true ∧
    lookupAgg ([] : AggregateMap) cmTwoEvents.aggregate_id = none ∧
    wsDispatchDelegate decU ([] : AggregateMap) cmTwoEvents = none ∧
    ¬ wsDispatchDelegate decU ([] : AggregateMap) cmTwoEvents =
        some (Except.ok ()) := by
  decide

/-- Claim C4 (amended): for every commit whose payloads parse, publishing when
the subscriber map contains no entry for its `aggregate_id` panics (the
`unreachable!` arm, modelled `none`) instead of returning success. -/
theorem publish_no_entry_panics_C4 :
    ∀ {V : Type} (parse : Bytes → Option V) (m : AggregateMap) (c : Commit),
      lookupAgg m c.aggregate_id = none →
      (Commit.deserialize parse c).isSome = true →
      WebSocketSubscriptions.publish parse m c = none := by
  intro V parse m c hl _
  unfold WebSocketSubscriptions.publish
  cases hds : Commit.deserialize parse c with
  | none => simp
  | some d => simp [hl]

/-- Claim C4 (amended, witness): the concrete two-event commit published
against the empty subscriber map panics. -/
theorem publish_no_entry_panics_witness_C4 :
    WebSocketSubscriptions.publish decU ([] : AggregateMap) cmTwoEvents =
      none :=
  publish_no_entry_panics_C4 decU [] cmTwoEvents rfl (by decide)

/-- Claim C6: when the command handler refuses, `issue_command` returns that
caller-defined error verbatim (`Either::Right`) and the client — its store in
particular — is exactly what it was before the call. -/
theorem issue_command_error_verbatim_no_store_C6 :
    ∀ {A E D Cerr : Type} (ops : AggOps A E) (step : DelegateStep D)
      (enc : List E → Bytes) (cl : ClientState A D) (a : A)
      (cmd : A → Except Cerr (List E)) (meta : Bytes) (fresh : Nat) (now : Int)
      (e : Cerr), cmd a = Except.error e →
      Client.issue_command ops step enc cl a cmd meta fresh now =
        (cl, Except.error (Sum.inr e)) := by
  intro A E D Cerr ops step enc cl a cmd meta fresh now e h
  unfold Client.issue_command
  rw [h]

/-- Claim C6 (witness): a refusing command against a fresh client returns the
error `"refused"` verbatim and leaves the client unchanged. -/
theorem issue_command_error_verbatim_no_store_witness_C6 :
    Client.issue_command opsInt stepNull encU clientStart 0 cmdRefuse [0] 9 0 =
      (clientStart, Except.error (Sum.inr "refused")) :=
  issue_command_error_verbatim_no_store_C6 opsInt stepNull encU clientStart 0
    cmdRefuse [0] 9 0 "refused" rfl

/-- Claim C9: `Commit::deserialize` returns normally exactly when both
payloads parse; a failed parse is an `unwrap` panic (`none`), not an error
value — exhibited on the concrete commit with a malformed events payload. -/
theorem deserialize_requires_both_parses_C9 :
    (∀ {V : Type} (parse : Bytes → Option V) (c : Commit),
        (Commit.deserialize parse c).isSome = true ↔
          ((parse c.serialized_events).isSome = true ∧
            (parse c.serialized_metadata).isSome = true))
    ∧ Commit.deserialize decU cmBadPayload = none := by
  refine ⟨fun {V} parse c => ?_, rfl⟩
  unfold Commit.deserialize
  cases he : parse c.serialized_events <;>
    cases hm : parse c.serialized_metadata <;> simp

/-- Claim C10: `mark_commit_as_dispatched` always succeeds, keeps the rowid
counter and the number and order of rows, rewrites each row to itself except
that a row carrying the given `commit_id` gets `dispatched := true`, and is the
identity when no row carries that id. -/
theorem mark_dispatched_frame_C10 :
    ∀ (s : SqliteStore) (i : Nat),
      (s.mark_commit_as_dispatched i).next_rowid = s.next_rowid
      ∧ (s.mark_commit_as_dispatched i).rows.length = s.rows.length
      ∧ (∀ k : Nat, (s.mark_commit_as_dispatched i).rows[k]? =
          (s.rows[k]?).map
            (fun r => if r.commit_id = i then { r with dispatched := true }
              else r))
      ∧ ((∀ r ∈ s.rows, r.commit_id ≠ i) → s.mark_commit_as_dispatched i = s) := by
  intro s i
  refine ⟨rfl, by simp [SqliteStore.mark_commit_as_dispatched],
    fun k => by simp [SqliteStore.mark_commit_as_dispatched], fun h => ?_⟩
  have hmap : s.rows.map
      (fun r => if r.commit_id = i then { r with dispatched := true } else r) =
      s.rows := by
    have hcongr := List.map_congr_left
      (f := fun r : Commit =>
        if r.commit_id = i then { r with dispatched := true } else r)
      (g := id) (l := s.rows)
      (fun r hr => by simp only [id_eq]; exact if_neg (h r hr))
    rw [hcongr, List.map_id]
  show { s with rows := _ } = s
  rw [hmap]

/-- Claim C10 (witness): marking an id that matches no stored commit leaves
the store exactly unchanged. -/
theorem mark_dispatched_frame_witness_C10 :
    stSeqFive.mark_commit_as_dispatched 99 = stSeqFive :=
  (mark_dispatched_frame_C10 stSeqFive 99).2.2.2 (by decide)

/-- Claim C8 (counterexample): nothing in the schema or in
`SqliteStore::commit` rejects an empty events payload — the store reachable by
committing `attZeroEvents` holds a durable commit with `events_count = 0`, so
`events_count ≥ 1` is not an invariant of all reachable states. -/
theorem events_count_zero_accepted_C8 :
    ¬ (∀ s : SqliteStore, Reachable (fun _ => True) s →
        ∀ r ∈ s.rows, 1 ≤ r.events_count) := by
  intro h
  have hreach : Reachable (fun _ => True) stZeroEvents :=
    Reachable.commit_ok emptyStore stZeroEvents attZeroEvents 1 Reachable.init
      trivial (by decide)
  exact absurd (h stZeroEvents hreach (attemptRow attZeroEvents 1) (by decide))
    (by decide)

/-- Claim C8 (amended): the store preserves but does not enforce the
invariant — every state reachable through appends whose attempts carry
`events_count ≥ 1` (the caller obligation `issue_command` relies on) has
`events_count ≥ 1` on all its durable commits. -/
theorem events_count_invariant_conditional_C8 :
    ∀ s : SqliteStore, Reachable (fun a => 1 ≤ a.events_count) s →
      ∀ r ∈ s.rows, 1 ≤ r.events_count := by
  intro s h
  induction h with
  | init => intro r hr; exact absurd hr (by simp [emptyStore])
  | commit_ok s s2 a n _ hP hc ih =>
      intro r hr
      obtain ⟨hrows, -⟩ := commit_ok_rows s s2 a n hc
      rw [hrows] at hr
      rcases List.mem_append.mp hr with hold | hnew
      · exact ih r hold
      · have hr' : r = attemptRow a n := by simpa using hnew
        rw [hr']; exact hP
  | mark s i _ ih =>
      intro r hr
      obtain ⟨r0, hr0, he⟩ := mark_rows_events s i r hr
      rw [he]; exact ih r0 hr0

/-- Claim C8 (amended, witness): the single-commit store built from a
one-event attempt satisfies the invariant on its stored row. -/
theorem events_count_invariant_conditional_witness_C8 :
    (1 : Int) ≤ (attemptRow attSeqFive 1).events_count :=
  events_count_invariant_conditional_C8 stSeqFive
    (Reachable.commit_ok emptyStore stSeqFive attSeqFive 1 Reachable.init
      (by decide) (by decide))
    (attemptRow attSeqFive 1) (by decide)

/-- Running the drain loop over a snapshot whose prefix the delegate accepts
and whose next commit it rejects: the loop returns the delegate state after the
rejection, the store with exactly the accepted prefix marked, and the
delegate's error. -/
theorem dispatchGo_halts {D : Type} (step : DelegateStep D) (c : Commit)
    (post : List Commit) (e : String) :
    ∀ (pre : List Commit) (d d2 : D) (s : SqliteStore),
      runAccepted step d pre = some d2 →
      (step d2 c).2 = Except.error e →
      dispatchGo step d s (pre ++ c :: post) =
        ((step d2 c).1, markAll s pre, some e) := by
  intro pre
  induction pre with
  | nil =>
      intro d d2 s hr hf
      have hd : d = d2 := by simpa [runAccepted] using hr
      subst hd
      show dispatchGo step d s (c :: post) = _
      simp only [dispatchGo, hf]
      rfl
  | cons p pre ih =>
      intro d d2 s hr hf
      simp only [runAccepted] at hr
      cases hstep : (step d p).2 with
      | error e2 => rw [hstep] at hr; simp at hr
      | ok u =>
          rw [hstep] at hr
          show dispatchGo step d s (p :: (pre ++ c :: post)) = _
          simp only [dispatchGo, hstep]
          exact ih (step d p).1 d2 (s.mark_commit_as_dispatched p.commit_id)
            hr hf

/-- Marking one `commit_id` does not change the `dispatched` flags stored for
a different `commit_id`. -/
theorem flagsOf_mark_ne (s : SqliteStore) (i j : Nat) (hne : j ≠ i) :
    flagsOf (s.mark_commit_as_dispatched j) i = flagsOf s i := by
  unfold flagsOf SqliteStore.mark_commit_as_dispatched
  induction s.rows with
  | nil => rfl
  | cons r t ih =>
      by_cases hc : r.commit_id = j
      · have hri : (r.commit_id == i) = false := by
          simp [hc]; exact hne
        simp only [List.map_cons, List.filter_cons, if_pos hc]
        simp only [show ({ r with dispatched := true } : Commit).commit_id =
          r.commit_id from rfl, hri]
        simpa using ih
      · simp only [List.map_cons, List.filter_cons, if_neg hc]
        cases hri : (r.commit_id == i) <;> simp_all

/-- Draining a prefix that does not contain a given `commit_id` leaves that
id's `dispatched` flags unchanged. -/
theorem flagsOf_markAll_of_not_mem :
    ∀ (pre : List Commit) (s : SqliteStore) (i : Nat),
      i ∉ pre.map (fun x => x.commit_id) →
      flagsOf (markAll s pre) i = flagsOf s i := by
  intro pre
  induction pre with
  | nil => intro s i _; rfl
  | cons p t ih =>
      intro s i hnot
      rw [List.map_cons, List.mem_cons] at hnot
      push_neg at hnot
      show flagsOf (markAll (s.mark_commit_as_dispatched p.commit_id) t) i = _
      rw [ih _ i hnot.2, flagsOf_mark_ne s i p.commit_id (Ne.symm hnot.1)]

/-- Claim C5: in a drain whose undispatched snapshot is `pre ++ c :: post`,
where the delegate accepts all of `pre` and rejects `c` with error `e`, the
dispatcher halts at `c`: it returns `e` to the caller, the store has exactly
the accepted prefix `pre` marked dispatched (each marked only after its
acceptance), and `c`'s own `dispatched` flags are untouched, so a later drain
re-delivers `c`. -/
theorem dispatch_halts_on_delegate_failure_C5 :
    ∀ {D : Type} (step : DelegateStep D) (d : D) (s : SqliteStore)
      (pre post : List Commit) (c : Commit) (d2 : D) (e : String),
      s.get_undispatched_commits = pre ++ c :: post →
      runAccepted step d pre = some d2 →
      (step d2 c).2 = Except.error e →
      Dispatcher.dispatch step d s = ((step d2 c).1, markAll s pre, some e)
      ∧ (c.commit_id ∉ pre.map (fun x => x.commit_id) →
          flagsOf (markAll s pre) c.commit_id = flagsOf s c.commit_id) := by
  intro D step d s pre post c d2 e hu hr hf
  refine ⟨?_, fun hnot => flagsOf_markAll_of_not_mem pre s c.commit_id hnot⟩
  unfold Dispatcher.dispatch
  rw [hu]
  exact dispatchGo_halts step c post e pre d d2 s hr hf

/-- Claim C5 (witness): a store holding one undispatched commit drained with a
delegate that rejects it: the drain surfaces the error and marks nothing. -/
theorem dispatch_halts_on_delegate_failure_witness_C5 :
    Dispatcher.dispatch stepRefuse () stSeqFive =
      ((), markAll stSeqFive [], some "boom") :=
  (dispatch_halts_on_delegate_failure_C5 stepRefuse () stSeqFive [] []
    (attemptRow attSeqFive 1) () "boom" (by decide) rfl rfl).1

/-- `mark_commit_as_dispatched` only flips `dispatched` flags: the rows are
unchanged under `stripFlag`. -/
theorem mark_strip (s : SqliteStore) (j : Nat) :
    (s.mark_commit_as_dispatched j).rows.map stripFlag =
      s.rows.map stripFlag := by
  unfold SqliteStore.mark_commit_as_dispatched
  simp only [List.map_map]
  exact List.map_congr_left (fun r _ => by
    by_cases hc : r.commit_id = j <;> simp [Function.comp, stripFlag, hc])

/-- The drain loop only flips `dispatched` flags in the store: the rows are
unchanged under `stripFlag`. -/
theorem dispatchGo_strip {D : Type} (step : DelegateStep D) :
    ∀ (l : List Commit) (d : D) (s : SqliteStore),
      ((dispatchGo step d s l).2.1).rows.map stripFlag =
        s.rows.map stripFlag := by
  intro l
  induction l with
  | nil => intro d s; rfl
  | cons c t ih =>
      intro d s
      simp only [dispatchGo]
      cases hstep : (step d c).2 with
      | ok u => rw [ih (step d c).1 (s.mark_commit_as_dispatched c.commit_id),
          mark_strip]
      | error e => rfl

/-- `hasCommitId = false` says no stored row carries the id. -/
theorem hasCommitId_false (s : SqliteStore) (i : Nat)
    (h : s.hasCommitId i = false) : ∀ r ∈ s.rows, r.commit_id ≠ i := by
  unfold SqliteStore.hasCommitId at h
  rw [List.any_eq_false] at h
  intro r hr
  have := h r hr
  simpa using this

/-- Lists equal under `stripFlag` have `stripFlag`-equal filtrations by
`commit_id` (the filter predicate only reads `commit_id`, which `stripFlag`
preserves). -/
theorem strip_filter_map (i : Nat) :
    ∀ (l1 l2 : List Commit), l1.map stripFlag = l2.map stripFlag →
      (l1.filter (fun r => r.commit_id == i)).map stripFlag =
        (l2.filter (fun r => r.commit_id == i)).map stripFlag := by
  intro l1
  induction l1 with
  | nil =>
      intro l2 h
      cases l2 with
      | nil => rfl
      | cons b t => simp at h
  | cons a t ih =>
      intro l2 h
      cases l2 with
      | nil => simp at h
      | cons b t2 =>
          simp only [List.map_cons, List.cons.injEq] at h
          obtain ⟨hab, ht⟩ := h
          have hid : a.commit_id = b.commit_id :=
            congrArg (fun r => r.commit_id) hab
          by_cases hc : a.commit_id = i
          · have hc2 : b.commit_id = i := hid ▸ hc
            simp only [List.filter_cons, beq_iff_eq, hc, hc2, if_true,
              List.map_cons]
            rw [hab, ih t2 ht]
          · have hc2 : ¬ b.commit_id = i := fun hh => hc (hid.trans hh)
            simp only [List.filter_cons, beq_iff_eq, hc, hc2, if_false]
            exact ih t2 ht

/-- Reading back a commit by id from a store whose rows are, up to
`dispatched` flags, an old segment free of that id followed by one new row:
`get_commit` succeeds and returns that row up to its `dispatched` flag. -/
theorem get_commit_after (s : SqliteStore) (olds : List Commit) (row : Commit)
    (hmap : s.rows.map stripFlag = (olds ++ [row]).map stripFlag)
    (hold : ∀ r ∈ olds, r.commit_id ≠ row.commit_id) :
    ∃ cres, s.get_commit row.commit_id = Except.ok cres ∧
      stripFlag cres = stripFlag row := by
  have hfilter := strip_filter_map row.commit_id s.rows (olds ++ [row]) hmap
  have holdf : (olds ++ [row]).filter
      (fun r => r.commit_id == row.commit_id) = [row] := by
    rw [List.filter_append]
    have h1 : olds.filter (fun r => r.commit_id == row.commit_id) = [] :=
      List.filter_eq_nil_iff.mpr (fun r hr => by simp [hold r hr])
    rw [h1]
    simp
  rw [holdf] at hfilter
  cases hf : s.rows.filter (fun r => r.commit_id == row.commit_id) with
  | nil => rw [hf] at hfilter; simp at hfilter
  | cons cres rest =>
      rw [hf] at hfilter
      simp only [List.map_cons] at hfilter
      injection hfilter with h1 h2
      have hrest : rest = [] := List.map_eq_nil_iff.mp h2
      subst hrest
      refine ⟨cres, ?_, h1⟩
      unfold SqliteStore.get_commit
      rw [hf]
      rfl

/-- The private `Client::commit` followed by `get_commit` on the attempt's id:
when both succeed, the commit handed back is the attempt's row up to its
`dispatched` flag. -/
theorem commitFn_get_fields {A D : Type} (step : DelegateStep D)
    (cl : ClientState A D) (att : CommitAttempt) (cl1 : ClientState A D)
    (n : Int) (h : Client.commitFn step cl att = (cl1, Except.ok n))
    (c : Commit) (hg : cl1.store.get_commit att.commit_id = Except.ok c) :
    stripFlag c = stripFlag (attemptRow att n) := by
  unfold Client.commitFn at h
  cases hcommit : cl.store.commit att with
  | error e => rw [hcommit] at h; simp at h
  | ok p =>
      obtain ⟨n0, s1⟩ := p
      rw [hcommit] at h
      simp only [Prod.mk.injEq] at h
      obtain ⟨hcl1, hn⟩ := h
      have hn0 : n0 = n := by simpa using hn
      subst hn0
      obtain ⟨hrows, hfree⟩ := commit_ok_rows cl.store s1 att n0 hcommit
      have hstore : cl1.store =
          (Dispatcher.dispatch step cl.dispatch_delegate s1).2.1 := by
        rw [← hcl1]
      have hmap : cl1.store.rows.map stripFlag =
          (cl.store.rows ++ [attemptRow att n0]).map stripFlag := by
        rw [hstore]
        unfold Dispatcher.dispatch
        rw [dispatchGo_strip step s1.get_undispatched_commits
          cl.dispatch_delegate s1, hrows]
      have hold : ∀ r ∈ cl.store.rows,
          r.commit_id ≠ (attemptRow att n0).commit_id :=
        hasCommitId_false cl.store att.commit_id hfree
      obtain ⟨cres, hok, hstrip⟩ :=
        get_commit_after cl1.store cl.store.rows (attemptRow att n0) hmap hold
      have : cres = c := by
        have := hok.symm.trans hg
        simpa using this
      rw [← this]
      exact hstrip

/-- Claim C7: a commit attempt submitted by a successful `issue_command`
carries `commit_sequence = self.commit_sequence + 1` (the client's last
observed sequence plus one), `aggregate_version = self.aggregate.version()`
(the session aggregate's version, to which the new events have not been
applied), `events_count = len(events)`, the fresh `commit_id` and the session
aggregate's id — read off the durable commit the call returns, which is the
attempt's row up to its `dispatched` flag. -/
theorem issue_command_attempt_fields_C7 :
    ∀ {A E D Cerr : Type} (ops : AggOps A E) (step : DelegateStep D)
      (enc : List E → Bytes) (cl : ClientState A D) (a : A)
      (cmd : A → Except Cerr (List E)) (meta : Bytes) (fresh : Nat)
      (now : Int) (es : List E) (cl2 : ClientState A D) (c : Commit),
      cmd a = Except.ok es →
      Client.issue_command ops step enc cl a cmd meta fresh now =
        (cl2, Except.ok c) →
      c.commit_id = fresh ∧
      c.aggregate_id = ops.idOf cl.aggregate ∧
      c.commit_sequence = cl.commit_sequence + 1 ∧
      c.aggregate_version = ops.versionOf cl.aggregate ∧
      c.events_count = (es.length : Int) := by
  intro A E D Cerr ops step enc cl a cmd meta fresh now es cl2 c hcmd hic
  unfold Client.issue_command at hic
  rw [hcmd] at hic
  split at hic
  · simp at hic
  · rename_i cl1 x heq1
    injection heq1 with hesx
    subst hesx
    simp only [] at hic
    split at hic
    · simp at hic
    · rename_i cl1b nb heq1b
      split at hic
      · simp at hic
      · rename_i cres heq2
        simp only [Prod.mk.injEq] at hic
        obtain ⟨hcl, hc2⟩ := hic
        have hcres : cres = c := by simpa using hc2
        rw [hcres] at heq2
        have hstrip := commitFn_get_fields step cl _ cl1b nb heq1b c heq2
        exact ⟨congrArg (fun r => r.commit_id) hstrip,
          congrArg (fun r => r.aggregate_id) hstrip,
          congrArg (fun r => r.commit_sequence) hstrip,
          congrArg (fun r => r.aggregate_version) hstrip,
          congrArg (fun r => r.events_count) hstrip⟩

/-- Claim C7 (witness): round 1 of the concrete scenario — two events against
a fresh client — returns a durable commit with `commit_sequence = 0 + 1`,
`aggregate_version = 0`, `events_count = 2`, `commit_id = 101`. -/
theorem issue_command_attempt_fields_witness_C7 :
    cmRound1.commit_id = 101 ∧
    cmRound1.aggregate_id = opsInt.idOf clientStart.aggregate ∧
    cmRound1.commit_sequence = clientStart.commit_sequence + 1 ∧
    cmRound1.aggregate_version = opsInt.versionOf clientStart.aggregate ∧
    cmRound1.events_count = ((List.replicate 2 ()).length : Int) :=
  issue_command_attempt_fields_C7 opsInt stepNull encU clientStart
    clientStart.aggregate (cmdEmit 2) [0] 101 0 (List.replicate 2 ()) clA
    cmRound1 (by decide) (by decide)
